import Mathlib

/-!
Verification development for the job-application tracker backend.

The definitions below are a shallow embedding of the code in
src/backend/src/routes/applications.ts (the Express route handlers and the
field-mapper functions), of the relational schema declared in
src/backend/prisma/migrations/20250720210932_update_interview_fields/migration.sql
(tables, enum types, ON DELETE CASCADE foreign keys), and of the reverse
field mappers in src/frontend/src/pages/applications/EditApplicationPage.tsx.

JavaScript-specific behaviour that the claims depend on is modelled
explicitly: property lookup on an object literal falls through to
Object.prototype when the key is not an own property (JsVal / jsIndex),
truthiness drives the fallback in the mappers and the field-presence tests
in the update handler, and parseInt returns NaN (modelled as none) on a
string with no leading digits.
-/

namespace JobTracker

/-- Result of a JavaScript property read on an object literal of strings:
an own property yields its string value; a key that is not an own property
but is a property of Object.prototype (such as "toString") yields that
inherited value (a function or object, always truthy); any other key yields
undefined. -/
inductive JsVal where
  | str (s : String)
  | inherited (name : String)
  | undef
deriving DecidableEq, Repr

/-- Property names every object literal inherits from Object.prototype.
A lookup such as mapping["toString"] on the mapper tables finds these. -/
def objectProtoKeys : List String :=
  ["constructor", "hasOwnProperty", "isPrototypeOf", "propertyIsEnumerable",
   "toLocaleString", "toString", "valueOf", "__defineGetter__",
   "__defineSetter__", "__lookupGetter__", "__lookupSetter__", "__proto__"]

/-- Own-property lookup in an object literal, first binding wins. -/
def lookupOwn : List (String × String) → String → Option String
  | [], _ => none
  | (k, v) :: rest, key => if key = k then some v else lookupOwn rest key

/-- JavaScript property read mapping[key]: own property, else the
Object.prototype chain, else undefined. -/
def jsIndex (table : List (String × String)) (key : String) : JsVal :=
  match lookupOwn table key with
  | some v => JsVal.str v
  | none => if key ∈ objectProtoKeys then JsVal.inherited key else JsVal.undef

/-- JavaScript truthiness of a property-read result: a string is truthy
iff nonempty; inherited functions and objects are truthy; undefined is
falsy. -/
def JsVal.truthy : JsVal → Bool
  | JsVal.str s => s != ""
  | JsVal.inherited _ => true
  | JsVal.undef => false

/-- The JavaScript expression v || dflt as it appears in each mapper. -/
def jsOrElse (v : JsVal) (dflt : String) : JsVal :=
  if v.truthy then v else JsVal.str dflt

/-- The string carried by a JsVal. Route handlers apply this only to
values the Zod schemas have already restricted to the mapping tables, for
which the mappers return JsVal.str. -/
def JsVal.asStr : JsVal → String
  | JsVal.str s => s
  | JsVal.inherited n => n
  | JsVal.undef => ""

/-- Mapping table of mapEmploymentType (applications.ts lines 14-22). -/
def employmentTypeMapping : List (String × String) :=
  [("full-time", "full_time"), ("part-time", "part_time"),
   ("contract", "contract"), ("internship", "internship")]

/-- mapEmploymentType from applications.ts: table lookup with fallback
default full_time. -/
def mapEmploymentType (frontendValue : String) : JsVal :=
  jsOrElse (jsIndex employmentTypeMapping frontendValue) "full_time"

/-- Mapping table of mapWorkType (applications.ts lines 24-31). -/
def workTypeMapping : List (String × String) :=
  [("remote", "remote"), ("hybrid", "hybrid"), ("on-site", "on_site")]

/-- mapWorkType from applications.ts: table lookup with fallback default
remote. -/
def mapWorkType (frontendValue : String) : JsVal :=
  jsOrElse (jsIndex workTypeMapping frontendValue) "remote"

/-- Mapping table of mapPriority (applications.ts lines 33-40). Note the
table has no entry for urgent. -/
def priorityMapping : List (String × String) :=
  [("low", "low"), ("medium", "medium"), ("high", "high")]

/-- mapPriority from applications.ts: table lookup with fallback default
medium. -/
def mapPriority (frontendValue : String) : JsVal :=
  jsOrElse (jsIndex priorityMapping frontendValue) "medium"

/-- Mapping table of mapStatus (applications.ts lines 43-54), the identity
on the seven status values. -/
def statusMapping : List (String × String) :=
  [("applied", "applied"), ("reviewing", "reviewing"),
   ("interview_scheduled", "interview_scheduled"),
   ("interviewed", "interviewed"), ("offer", "offer"),
   ("rejected", "rejected"), ("withdrawn", "withdrawn")]

/-- mapStatus from applications.ts: table lookup with fallback default
applied. -/
def mapStatus (frontendValue : String) : JsVal :=
  jsOrElse (jsIndex statusMapping frontendValue) "applied"

/-- Reverse table of reverseMapEmploymentType
(EditApplicationPage.tsx lines 48-56). -/
def employmentTypeReverseMapping : List (String × String) :=
  [("full_time", "full-time"), ("part_time", "part-time"),
   ("contract", "contract"), ("internship", "internship")]

/-- reverseMapEmploymentType from EditApplicationPage.tsx. -/
def reverseMapEmploymentType (dbValue : String) : JsVal :=
  jsOrElse (jsIndex employmentTypeReverseMapping dbValue) "full-time"

/-- Reverse table of reverseMapWorkType (EditApplicationPage.tsx
lines 58-65). -/
def workTypeReverseMapping : List (String × String) :=
  [("remote", "remote"), ("hybrid", "hybrid"), ("on_site", "on-site")]

/-- reverseMapWorkType from EditApplicationPage.tsx. -/
def reverseMapWorkType (dbValue : String) : JsVal :=
  jsOrElse (jsIndex workTypeReverseMapping dbValue) "remote"

/-- Reverse table of reverseMapPriority (EditApplicationPage.tsx
lines 67-74). -/
def priorityReverseMapping : List (String × String) :=
  [("low", "low"), ("medium", "medium"), ("high", "high")]

/-- reverseMapPriority from EditApplicationPage.tsx. -/
def reverseMapPriority (dbValue : String) : JsVal :=
  jsOrElse (jsIndex priorityReverseMapping dbValue) "medium"

/-- Reverse table of reverseMapStatus (EditApplicationPage.tsx
lines 76-87). -/
def statusReverseMapping : List (String × String) :=
  [("applied", "applied"), ("reviewing", "reviewing"),
   ("interview_scheduled", "interview_scheduled"),
   ("interviewed", "interviewed"), ("offer", "offer"),
   ("rejected", "rejected"), ("withdrawn", "withdrawn")]

/-- reverseMapStatus from EditApplicationPage.tsx. -/
def reverseMapStatus (dbValue : String) : JsVal :=
  jsOrElse (jsIndex statusReverseMapping dbValue) "applied"

/-- Accumulate the leading decimal digits of a character list. -/
def digitsAcc : Nat → List Char → Nat
  | acc, [] => acc
  | acc, c :: cs => if c.isDigit then digitsAcc (acc * 10 + (c.toNat - 48)) cs else acc

/-- Value of the leading digit run, none when the list does not start with
a digit. -/
def leadingDigits : List Char → Option Nat
  | [] => none
  | c :: cs => if c.isDigit then some (digitsAcc 0 (c :: cs)) else none

/-- JavaScript parseInt on a base-10 string: skip leading spaces, read an
optional sign, then the longest leading digit run; NaN (none) when no
digits follow. parseInt("bulk") is NaN. -/
def parseIntJS (s : String) : Option Int :=
  let cs := (s.toList).dropWhile (fun c => c = ' ')
  match cs with
  | '-' :: rest => (leadingDigits rest).map (fun n => -(n : Int))
  | '+' :: rest => (leadingDigits rest).map (fun n => (n : Int))
  | _ => (leadingDigits cs).map (fun n => (n : Int))

/-- Company row (migration.sql lines 33-46), the fields the routes read. -/
structure Company where
  id : Nat
  userId : Nat
  name : String
deriving DecidableEq, Repr

/-- Application row (migration.sql lines 49-73). Enum columns are strings
drawn from the Postgres enum types; Option models SQL NULL and JSON
absence together (the routes treat null and undefined alike except where
noted). Timestamps are represented by the clock of DbState. -/
structure Application where
  id : Nat
  userId : Nat
  companyId : Nat
  positionTitle : String
  applicationDate : Option String
  status : String
  priority : String
  employmentType : String
  workType : String
  location : Option String
  salaryMin : Option Nat
  salaryMax : Option Nat
  source : Option String
  notes : Option String
  jobDescription : Option String
  requirements : Option String
  salaryRange : Option String
  applicationUrl : Option String
  referralSource : Option String
deriving DecidableEq, Repr

/-- StatusHistory row (migration.sql lines 76-84): its only columns are
id, status, notes, createdAt, applicationId. -/
structure StatusHistory where
  id : Nat
  status : String
  notes : Option String
  createdAt : Nat
  applicationId : Nat
deriving DecidableEq, Repr

/-- Interview row (migration.sql lines 87-111), the column the cascade
depends on. -/
structure Interview where
  id : Nat
  applicationId : Nat
deriving DecidableEq, Repr

/-- Task row (migration.sql lines 114-134); applicationId is nullable. -/
structure Task where
  id : Nat
  userId : Nat
  applicationId : Option Nat
deriving DecidableEq, Repr

/-- Document row (migration.sql lines 137-158); applicationId is
nullable. -/
structure Document where
  id : Nat
  userId : Nat
  applicationId : Option Nat
deriving DecidableEq, Repr

/-- The relational store. Lists hold rows in insertion order; nextAppId
and nextHistId model the SERIAL id sequences; clock models CURRENT_TIMESTAMP
and advances whenever a StatusHistory row is written. -/
structure DbState where
  companies : List Company
  applications : List Application
  statusHistory : List StatusHistory
  interviews : List Interview
  tasks : List Task
  documents : List Document
  nextAppId : Nat
  nextHistId : Nat
  clock : Nat
deriving DecidableEq, Repr

/-- The seven values of z.enum for status (applications.ts line 61),
identical to the ApplicationStatus Postgres enum (migration.sql line 8). -/
def statusEnumVals : List String :=
  ["applied", "reviewing", "interview_scheduled", "interviewed", "offer",
   "rejected", "withdrawn"]

/-- z.enum for employmentType (applications.ts line 64). -/
def employmentTypeEnumVals : List String :=
  ["full-time", "part-time", "contract", "internship"]

/-- z.enum for workType (applications.ts line 65). -/
def workTypeEnumVals : List String := ["remote", "hybrid", "on-site"]

/-- z.enum for priority (applications.ts line 70): only low, medium,
high. -/
def priorityEnumVals : List String := ["low", "medium", "high"]

/-- The Priority Postgres enum (migration.sql line 11): four values,
including urgent. -/
def dbPriorityValues : List String := ["low", "medium", "high", "urgent"]

/-- Body accepted by createApplicationSchema (applications.ts
lines 57-79) after Zod validation. -/
structure CreateInput where
  companyId : Nat
  positionTitle : String
  applicationDate : Option String
  status : Option String
  employmentType : Option String
  workType : Option String
  location : Option String
  salaryMin : Option Nat
  salaryMax : Option Nat
  source : Option String
  priority : Option String
  notes : Option String
  jobDescription : Option String
  requirements : Option String
  salaryRange : Option String
  applicationUrl : Option String
  referralSource : Option String
deriving DecidableEq, Repr

/-- Body accepted by updateApplicationSchema =
createApplicationSchema.partial() (applications.ts line 81). -/
structure UpdateInput where
  companyId : Option Nat
  positionTitle : Option String
  applicationDate : Option String
  status : Option String
  employmentType : Option String
  workType : Option String
  location : Option String
  salaryMin : Option Nat
  salaryMax : Option Nat
  source : Option String
  priority : Option String
  notes : Option String
  jobDescription : Option String
  requirements : Option String
  salaryRange : Option String
  applicationUrl : Option String
  referralSource : Option String
deriving DecidableEq, Repr

/-- An optional enum field is valid when absent or drawn from its z.enum
list. -/
def memEnum (v : Option String) (vals : List String) : Bool :=
  match v with
  | none => true
  | some s => decide (s ∈ vals)

/-- An optional string field respecting a z.string().max bound. -/
def optLenLe (v : Option String) (n : Nat) : Bool :=
  match v with
  | none => true
  | some s => s.length ≤ n

/-- An optional z.number().int().positive() field. -/
def optPos (v : Option Nat) : Bool :=
  match v with
  | none => true
  | some n => 0 < n

/-- Zod acceptance of a create body (createApplicationSchema). -/
def validCreate (p : CreateInput) : Bool :=
  0 < p.companyId &&
  1 ≤ p.positionTitle.length && p.positionTitle.length ≤ 200 &&
  memEnum p.status statusEnumVals &&
  memEnum p.employmentType employmentTypeEnumVals &&
  memEnum p.workType workTypeEnumVals &&
  optLenLe p.location 200 &&
  optPos p.salaryMin && optPos p.salaryMax &&
  optLenLe p.source 200 &&
  memEnum p.priority priorityEnumVals &&
  optLenLe p.notes 2000 &&
  optLenLe p.jobDescription 5000 &&
  optLenLe p.requirements 3000 &&
  optLenLe p.salaryRange 100 &&
  optLenLe p.referralSource 200

/-- Zod acceptance of an update body (updateApplicationSchema: every
field optional). -/
def validUpdate (p : UpdateInput) : Bool :=
  optPos p.companyId &&
  (match p.positionTitle with
   | none => true
   | some t => 1 ≤ t.length && t.length ≤ 200) &&
  memEnum p.status statusEnumVals &&
  memEnum p.employmentType employmentTypeEnumVals &&
  memEnum p.workType workTypeEnumVals &&
  optLenLe p.location 200 &&
  optPos p.salaryMin && optPos p.salaryMax &&
  optLenLe p.source 200 &&
  memEnum p.priority priorityEnumVals &&
  optLenLe p.notes 2000 &&
  optLenLe p.jobDescription 5000 &&
  optLenLe p.requirements 3000 &&
  optLenLe p.salaryRange 100 &&
  optLenLe p.referralSource 200

/-- JavaScript truthiness of an optional string (absent or empty is
falsy). -/
def optStrTruthy : Option String → Bool
  | none => false
  | some s => s != ""

/-- JavaScript truthiness of an optional number (absent or zero is
falsy). -/
def optNatTruthy : Option Nat → Bool
  | none => false
  | some n => n != 0

/-- The expression v || null used on create for text fields. -/
def orNull (v : Option String) : Option String :=
  match v with
  | some s => if s != "" then some s else none
  | none => none

/-- The expression v || null used on create for salary fields. -/
def orNullNat (v : Option Nat) : Option Nat :=
  match v with
  | some n => if n != 0 then some n else none
  | none => none

/-- A JSON response: HTTP status, message, and the optional application
and statusHistory payloads the handlers attach. -/
structure HttpResponse where
  status : Nat
  message : String
  application : Option Application
  history : Option (List StatusHistory)
deriving DecidableEq, Repr

/-- A bare message response. -/
def jsonMsg (status : Nat) (message : String) : HttpResponse :=
  ⟨status, message, none, none⟩

/-- prisma.application.findFirst filtering by id and userId, as every
per-id handler does. -/
def findFirstApp (apps : List Application) (appId : Int) (uid : Nat) : Option Application :=
  apps.find? (fun a => (a.id : Int) == appId && a.userId == uid)

/-- prisma.company.findFirst filtering by id and userId. -/
def findFirstCompany (cs : List Company) (companyId : Nat) (uid : Nat) : Option Company :=
  cs.find? (fun c => c.id == companyId && c.userId == uid)

/-- StatusHistory rows of one application, in insertion order. -/
def historyFor (s : DbState) (appId : Nat) : List StatusHistory :=
  s.statusHistory.filter (fun e => e.applicationId == appId)

/-- The include statusHistory orderBy createdAt desc of the handlers:
insertion order coincides with createdAt order, so descending order is the
reverse. -/
def historyDesc (s : DbState) (appId : Nat) : List StatusHistory :=
  (historyFor s appId).reverse

/-- GET /api/applications/:id (applications.ts lines 182-225). -/
def getApplicationById (s : DbState) (uid : Nat) (idParam : String) : DbState × HttpResponse :=
  match parseIntJS idParam with
  | none => (s, jsonMsg 400 "Invalid application ID")
  | some applicationId =>
    match findFirstApp s.applications applicationId uid with
    | none => (s, jsonMsg 404 "Application not found")
    | some application =>
      (s, ⟨200, "", some application, some (historyDesc s application.id)⟩)

/-- The applicationData object the create handler builds
(applications.ts lines 247-272): ternary defaults, enum mapping, and
or-null coalescing, with the id drawn from the SERIAL sequence. -/
def buildCreateApp (s : DbState) (uid : Nat) (p : CreateInput) : Application :=
  { id := s.nextAppId
    userId := uid
    companyId := p.companyId
    positionTitle := p.positionTitle
    applicationDate := if optStrTruthy p.applicationDate then p.applicationDate else none
    status := if optStrTruthy p.status then (mapStatus (p.status.getD "")).asStr else "applied"
    priority := if optStrTruthy p.priority then (mapPriority (p.priority.getD "")).asStr else "medium"
    employmentType := if optStrTruthy p.employmentType then (mapEmploymentType (p.employmentType.getD "")).asStr else "full_time"
    workType := if optStrTruthy p.workType then (mapWorkType (p.workType.getD "")).asStr else "remote"
    location := orNull p.location
    salaryMin := orNullNat p.salaryMin
    salaryMax := orNullNat p.salaryMax
    source := orNull p.source
    notes := orNull p.notes
    jobDescription := if optStrTruthy p.jobDescription then p.jobDescription else none
    requirements := if optStrTruthy p.requirements then p.requirements else none
    salaryRange := if optStrTruthy p.salaryRange then p.salaryRange else none
    applicationUrl := if optStrTruthy p.applicationUrl then p.applicationUrl else none
    referralSource := if optStrTruthy p.referralSource then p.referralSource else none }

/-- POST /api/applications (applications.ts lines 228-318): verify the
company belongs to the user, build applicationData with the ternary
defaults and enum mapping, insert the Application, then insert one
StatusHistory row carrying the already-mapped status and the note
"Application created". -/
def createApplication (s : DbState) (uid : Nat) (p : CreateInput) : DbState × HttpResponse :=
  match findFirstCompany s.companies p.companyId uid with
  | none => (s, jsonMsg 400 "Company not found or does not belong to user")
  | some _ =>
    let app : Application := buildCreateApp s uid p
    let s1 : DbState :=
      { s with applications := s.applications ++ [app], nextAppId := s.nextAppId + 1 }
    let hist : StatusHistory :=
      { id := s1.nextHistId
        status := app.status
        notes := some "Application created"
        createdAt := s1.clock
        applicationId := app.id }
    let s2 : DbState :=
      { s1 with statusHistory := s1.statusHistory ++ [hist]
                nextHistId := s1.nextHistId + 1
                clock := s1.clock + 1 }
    (s2, ⟨201, "Application created successfully", some app, none⟩)

/-- The updateData object of PUT (applications.ts lines 360-383) applied
to the stored row: truthiness tests for the core fields, defined-ness
tests for the rest, enum mapping where the source maps. -/
def applyUpdate (a : Application) (p : UpdateInput) : Application :=
  { id := a.id
    userId := a.userId
    companyId := if optNatTruthy p.companyId then p.companyId.getD a.companyId else a.companyId
    positionTitle := if optStrTruthy p.positionTitle then p.positionTitle.getD a.positionTitle else a.positionTitle
    applicationDate := if optStrTruthy p.applicationDate then p.applicationDate else a.applicationDate
    status := if optStrTruthy p.status then (mapStatus (p.status.getD "")).asStr else a.status
    priority := if optStrTruthy p.priority then (mapPriority (p.priority.getD "")).asStr else a.priority
    employmentType := if p.employmentType.isSome then (mapEmploymentType (p.employmentType.getD "")).asStr else a.employmentType
    workType := if p.workType.isSome then (mapWorkType (p.workType.getD "")).asStr else a.workType
    location := if p.location.isSome then p.location else a.location
    salaryMin := if p.salaryMin.isSome then p.salaryMin else a.salaryMin
    salaryMax := if p.salaryMax.isSome then p.salaryMax else a.salaryMax
    source := if p.source.isSome then p.source else a.source
    notes := if p.notes.isSome then p.notes else a.notes
    jobDescription := if p.jobDescription.isSome then p.jobDescription else a.jobDescription
    requirements := if p.requirements.isSome then p.requirements else a.requirements
    salaryRange := if p.salaryRange.isSome then p.salaryRange else a.salaryRange
    applicationUrl := if p.applicationUrl.isSome then p.applicationUrl else a.applicationUrl
    referralSource := if p.referralSource.isSome then p.referralSource else a.referralSource }

/-- PUT /api/applications/:id (applications.ts lines 321-435). The
application row is updated by one Prisma call and, if the requested status
is truthy and differs from the stored one, a StatusHistory row is inserted
by a second, separate Prisma call; there is no transaction around the two.
historyInsertFails models that second call throwing: the catch block then
answers 500, but the application update has already been committed. The
200 response carries the statusHistory read during the update call, i.e.
before the append. -/
def updateApplicationWith (historyInsertFails : Bool) (s : DbState) (uid : Nat)
    (idParam : String) (p : UpdateInput) : DbState × HttpResponse :=
  match parseIntJS idParam with
  | none => (s, jsonMsg 400 "Invalid application ID")
  | some applicationId =>
    match findFirstApp s.applications applicationId uid with
    | none => (s, jsonMsg 404 "Application not found")
    | some existingApplication =>
      if optNatTruthy p.companyId &&
          (findFirstCompany s.companies (p.companyId.getD 0) uid).isNone then
        (s, jsonMsg 400 "Company not found or does not belong to user")
      else
        let application := applyUpdate existingApplication p
        let s1 : DbState :=
          { s with applications :=
              s.applications.map (fun a => if a.id == existingApplication.id then application else a) }
        if optStrTruthy p.status && p.status != some existingApplication.status then
          if historyInsertFails then
            (s1, jsonMsg 500 "Failed to update application")
          else
            let hist : StatusHistory :=
              { id := s1.nextHistId
                status := application.status
                notes := some ("Status updated to " ++ p.status.getD "")
                createdAt := s1.clock
                applicationId := application.id }
            ({ s1 with statusHistory := s1.statusHistory ++ [hist]
                       nextHistId := s1.nextHistId + 1
                       clock := s1.clock + 1 },
             ⟨200, "Application updated successfully", some application,
              some (historyDesc s1 application.id)⟩)
        else
          (s1, ⟨200, "Application updated successfully", some application,
                some (historyDesc s1 application.id)⟩)

/-- PUT handler on the normal path where both Prisma calls succeed. -/
def updateApplication (s : DbState) (uid : Nat) (idParam : String) (p : UpdateInput) :
    DbState × HttpResponse :=
  updateApplicationWith false s uid idParam p

/-- Effect of DELETE on Application plus the ON DELETE CASCADE foreign
keys of migration.sql lines 176-191: every StatusHistory, Interview, Task
and Document row referencing the application is removed with it. -/
def deleteApplicationCascade (s : DbState) (appId : Nat) : DbState :=
  { s with
    applications := s.applications.filter (fun a => a.id != appId)
    statusHistory := s.statusHistory.filter (fun e => e.applicationId != appId)
    interviews := s.interviews.filter (fun i => i.applicationId != appId)
    tasks := s.tasks.filter (fun t => t.applicationId != some appId)
    documents := s.documents.filter (fun d => d.applicationId != some appId) }

/-- DELETE /api/applications/:id (applications.ts lines 438-474). -/
def deleteApplication (s : DbState) (uid : Nat) (idParam : String) : DbState × HttpResponse :=
  match parseIntJS idParam with
  | none => (s, jsonMsg 400 "Invalid application ID")
  | some applicationId =>
    match findFirstApp s.applications applicationId uid with
    | none => (s, jsonMsg 404 "Application not found")
    | some application =>
      (deleteApplicationCascade s application.id, jsonMsg 200 "Application deleted successfully")

/-- Body of the bulk-delete handler (applications.ts lines 477-519):
verify all ids belong to the user, then deleteMany filtered by id and
userId, cascading per the foreign keys. -/
def bulkDeleteApplications (s : DbState) (uid : Nat) (ids : List Nat) : DbState × HttpResponse :=
  if ids.isEmpty then (s, jsonMsg 400 "Invalid or empty IDs array")
  else
    let owned := s.applications.filter (fun a => ids.contains a.id && a.userId == uid)
    if owned.length != ids.length then
      (s, jsonMsg 400 "Some applications not found or do not belong to user")
    else
      let victimIds := owned.map (fun a => a.id)
      let s1 : DbState :=
        { s with
          applications := s.applications.filter (fun a => !(victimIds.contains a.id))
          statusHistory := s.statusHistory.filter (fun e => !(victimIds.contains e.applicationId))
          interviews := s.interviews.filter (fun i => !(victimIds.contains i.applicationId))
          tasks := s.tasks.filter (fun t =>
            match t.applicationId with
            | some i => !(victimIds.contains i)
            | none => true)
          documents := s.documents.filter (fun d =>
            match d.applicationId with
            | some i => !(victimIds.contains i)
            | none => true) }
      (s1, jsonMsg 200 "applications deleted successfully")

/-- HTTP methods used by the applications router. -/
inductive Method where
  | get
  | post
  | put
  | delete
deriving DecidableEq, Repr

/-- A route path pattern on this router: the bare mount path, a single
:id parameter segment, or a fixed segment such as bulk. -/
inductive RoutePattern where
  | root
  | param
  | exact (seg : String)
deriving DecidableEq, Repr

/-- Express path matching for one segment: none is the bare mount path,
some seg one extra segment. A :id pattern matches any single segment. -/
def routeMatches : RoutePattern → Option String → Bool
  | RoutePattern.root, none => true
  | RoutePattern.root, some _ => false
  | RoutePattern.param, none => false
  | RoutePattern.param, some _ => true
  | RoutePattern.exact s, some seg => s == seg
  | RoutePattern.exact _, none => false

/-- The routes of the applications router in registration order
(applications.ts lines 84, 182, 228, 321, 438, 477). Index 4 is
DELETE /:id, index 5 is DELETE /bulk. -/
def applicationRoutes : List (Method × RoutePattern) :=
  [(Method.get, RoutePattern.root),
   (Method.get, RoutePattern.param),
   (Method.post, RoutePattern.root),
   (Method.put, RoutePattern.param),
   (Method.delete, RoutePattern.param),
   (Method.delete, RoutePattern.exact "bulk")]

/-- Index of the first matching route, scanning from position i. -/
def firstMatchFrom : Nat → List (Method × RoutePattern) → Method → Option String → Option Nat
  | _, [], _, _ => none
  | i, (m, pat) :: rest, meth, path =>
    if m == meth && routeMatches pat path then some i else firstMatchFrom (i + 1) rest meth path

/-- Express dispatch order: the first registered route whose method and
pattern match handles the request. -/
def firstMatchIdx (meth : Method) (path : Option String) : Option Nat :=
  firstMatchFrom 0 applicationRoutes meth path

/-- Dispatch of a DELETE request with one path segment on the
applications router: the first matching registered route runs. -/
def dispatchDelete (s : DbState) (uid : Nat) (seg : String) (bodyIds : List Nat) :
    DbState × HttpResponse :=
  match firstMatchIdx Method.delete (some seg) with
  | some 4 => deleteApplication s uid seg
  | some 5 => bulkDeleteApplications s uid bodyIds
  | _ => (s, jsonMsg 404 "Not found")

/-- The operations of the applications router, for stating invariants
over every reachable behaviour. -/
inductive Op where
  | create (uid : Nat) (p : CreateInput)
  | update (uid : Nat) (idParam : String) (p : UpdateInput)
  | deleteOne (uid : Nat) (idParam : String)
  | bulkDelete (uid : Nat) (ids : List Nat)
  | getOne (uid : Nat) (idParam : String)

/-- One request handled by the applications router. -/
def step (s : DbState) : Op → DbState × HttpResponse
  | Op.create uid p => createApplication s uid p
  | Op.update uid idParam p => updateApplication s uid idParam p
  | Op.deleteOne uid idParam => deleteApplication s uid idParam
  | Op.bulkDelete uid ids => bulkDeleteApplications s uid ids
  | Op.getOne uid idParam => getApplicationById s uid idParam

/-- An application row with the given ids and status and default data,
used as a concrete test fixture. -/
def mkApp (appId uid cid : Nat) (st : String) : Application :=
  { id := appId
    userId := uid
    companyId := cid
    positionTitle := "Engineer"
    applicationDate := none
    status := st
    priority := "medium"
    employmentType := "full_time"
    workType := "remote"
    location := none
    salaryMin := none
    salaryMax := none
    source := none
    notes := none
    jobDescription := none
    requirements := none
    salaryRange := none
    applicationUrl := none
    referralSource := none }

/-- A store holding one company and one application of user 1 with the
given status, together with the creation history entry. -/
def baseState (st : String) : DbState :=
  { companies := [⟨1, 1, "Acme"⟩]
    applications := [mkApp 1 1 1 st]
    statusHistory := [⟨1, st, some "Application created", 0, 1⟩]
    interviews := []
    tasks := []
    documents := []
    nextAppId := 2
    nextHistId := 2
    clock := 1 }

/-- Like baseState, with the application owned by the given user and no
history. -/
def stateOwnedBy (owner : Nat) : DbState :=
  { companies := [⟨1, owner, "Acme"⟩]
    applications := [mkApp 1 owner 1 "applied"]
    statusHistory := []
    interviews := []
    tasks := []
    documents := []
    nextAppId := 2
    nextHistId := 1
    clock := 0 }

/-- A store with one application and one dependent row in each child
table, for exercising the delete cascade. -/
def stateWithChildren : DbState :=
  { companies := [⟨1, 1, "Acme"⟩]
    applications := [mkApp 1 1 1 "applied"]
    statusHistory := [⟨1, "applied", some "Application created", 0, 1⟩]
    interviews := [⟨1, 1⟩]
    tasks := [⟨1, 1, some 1⟩]
    documents := [⟨1, 1, some 1⟩]
    nextAppId := 2
    nextHistId := 2
    clock := 1 }

/-- An update body carrying only a status. -/
def statusOnlyUpdate (st : String) : UpdateInput :=
  { companyId := none
    positionTitle := none
    applicationDate := none
    status := some st
    employmentType := none
    workType := none
    location := none
    salaryMin := none
    salaryMax := none
    source := none
    priority := none
    notes := none
    jobDescription := none
    requirements := none
    salaryRange := none
    applicationUrl := none
    referralSource := none }

/-- An update body with no fields at all. -/
def emptyUpdate : UpdateInput :=
  { companyId := none
    positionTitle := none
    applicationDate := none
    status := none
    employmentType := none
    workType := none
    location := none
    salaryMin := none
    salaryMax := none
    source := none
    priority := none
    notes := none
    jobDescription := none
    requirements := none
    salaryRange := none
    applicationUrl := none
    referralSource := none }

/-- A create body for company 1 with an optional explicit status and
priority. -/
def mkCreate (st pr : Option String) : CreateInput :=
  { companyId := 1
    positionTitle := "Engineer"
    applicationDate := none
    status := st
    employmentType := none
    workType := none
    location := none
    salaryMin := none
    salaryMax := none
    source := none
    priority := pr
    notes := none
    jobDescription := none
    requirements := none
    salaryRange := none
    applicationUrl := none
    referralSource := none }

/-- The StatusHistory rows an update run appends to baseState (everything
past the creation entry). -/
def appendedEntries (st0 newSt : String) : List StatusHistory :=
  ((updateApplication (baseState st0) 1 "1" (statusOnlyUpdate newSt)).1.statusHistory).drop 1

/-- One direction round trip: reverse-map the storage value, feed the
resulting presentation string to the forward mapper, and compare with the
original. -/
def roundTripsVia (fwd rev : String → JsVal) (x : String) : Bool :=
  match rev x with
  | JsVal.str p => fwd p == JsVal.str x
  | _ => false

/-- The storage vocabulary of a mapping table: its value column. -/
def storageValues (table : List (String × String)) : List String :=
  table.map Prod.snd

/-- The stored history is strictly increasing in createdAt and every
entry predates the clock. -/
def historyOrdered (s : DbState) : Prop :=
  List.Pairwise (fun e1 e2 => e1.createdAt < e2.createdAt) s.statusHistory ∧
  ∀ e ∈ s.statusHistory, e.createdAt < s.clock

/-- mapStatus is the identity on the seven Zod-accepted status values. -/
theorem mapStatus_asStr_of_mem (st : String) (h : st ∈ statusEnumVals) :
    (mapStatus st).asStr = st := by
  fin_cases h <;> rfl

/-- A Zod-accepted status value is nonempty. -/
theorem statusEnumVals_ne_empty (st : String) (h : st ∈ statusEnumVals) : st ≠ "" := by
  fin_cases h <;> decide

/-- C4: round-trip law of the field mappers: for every storage value in
each mapping table (employmentType, workType, priority, status), applying
the storage-to-presentation reverse mapper and then the
presentation-to-storage forward mapper returns the original value. -/
theorem mapper_round_trip_law :
    ((storageValues employmentTypeMapping).all
        (fun x => roundTripsVia mapEmploymentType reverseMapEmploymentType x)) = true ∧
    ((storageValues workTypeMapping).all
        (fun x => roundTripsVia mapWorkType reverseMapWorkType x)) = true ∧
    ((storageValues priorityMapping).all
        (fun x => roundTripsVia mapPriority reverseMapPriority x)) = true ∧
    ((storageValues statusMapping).all
        (fun x => roundTripsVia mapStatus reverseMapStatus x)) = true := by
  decide

/-- C5 counterexample: the string toString is not in the employmentType
mapping table, yet mapEmploymentType does not return the default
full_time: the JavaScript lookup finds the inherited and truthy
Object.prototype.toString, which the || fallback then keeps. -/
theorem mapper_unknown_input_not_default :
    lookupOwn employmentTypeMapping "toString" = none ∧
    mapEmploymentType "toString" = JsVal.inherited "toString" ∧
    mapEmploymentType "toString" ≠ JsVal.str "full_time" := by
  decide

/-- C5 amended: for every input string that is neither an own key of the
mapping table nor a property name inherited from Object.prototype, each
mapper returns its documented default (full_time, remote, medium, applied
respectively). -/
theorem mapper_unknown_input_defaults (v : String) (hp : v ∉ objectProtoKeys) :
    (lookupOwn employmentTypeMapping v = none → mapEmploymentType v = JsVal.str "full_time") ∧
    (lookupOwn workTypeMapping v = none → mapWorkType v = JsVal.str "remote") ∧
    (lookupOwn priorityMapping v = none → mapPriority v = JsVal.str "medium") ∧
    (lookupOwn statusMapping v = none → mapStatus v = JsVal.str "applied") := by
  refine ⟨fun h => ?_, fun h => ?_, fun h => ?_, fun h => ?_⟩ <;>
    simp [mapEmploymentType, mapWorkType, mapPriority, mapStatus, jsIndex,
      jsOrElse, h, hp, JsVal.truthy]

/-- Witness for the amended C5 statement at concrete inputs, including
the unrecognized priority urgent falling back to medium. -/
theorem mapper_unknown_input_defaults_witness :
    "nonsense" ∉ objectProtoKeys ∧
    mapEmploymentType "nonsense" = JsVal.str "full_time" ∧
    mapPriority "urgent" = JsVal.str "medium" :=
  ⟨by decide,
   (mapper_unknown_input_defaults "nonsense" (by decide)).1 (by decide),
   (mapper_unknown_input_defaults "urgent" (by decide)).2.2.1 (by decide)⟩

/-- C2: the PUT status write and the history append are not atomic. On a
store whose application 1 has status applied, a PUT changing the status
to interviewed whose history insert fails answers 500, yet the stored
status is already interviewed while the history is unchanged. -/
theorem update_history_append_not_atomic :
    (updateApplicationWith true (baseState "applied") 1 "1" (statusOnlyUpdate "interviewed")).2 =
      jsonMsg 500 "Failed to update application" ∧
    (updateApplicationWith true (baseState "applied") 1 "1"
        (statusOnlyUpdate "interviewed")).1.applications.map (fun a => a.status) =
      ["interviewed"] ∧
    (updateApplicationWith true (baseState "applied") 1 "1"
        (statusOnlyUpdate "interviewed")).1.statusHistory =
      (baseState "applied").statusHistory := by
  decide

/-- C1 counterexample: two accepted status-changing updates from
different prior statuses (applied and reviewing, both changing to
interviewed) append identical StatusHistory rows, so the appended row
does not record the status the application held immediately before the
update: a previousStatus reading of the row would need two different
values on one and the same row. -/
theorem statusHistory_no_previousStatus :
    (baseState "applied").applications.map (fun a => a.status) = ["applied"] ∧
    (baseState "reviewing").applications.map (fun a => a.status) = ["reviewing"] ∧
    appendedEntries "applied" "interviewed" =
      [⟨2, "interviewed", some "Status updated to interviewed", 1, 1⟩] ∧
    appendedEntries "reviewing" "interviewed" =
      [⟨2, "interviewed", some "Status updated to interviewed", 1, 1⟩] ∧
    ¬ ∃ f : StatusHistory → Option String,
        f ⟨2, "interviewed", some "Status updated to interviewed", 1, 1⟩ = some "applied" ∧
        f ⟨2, "interviewed", some "Status updated to interviewed", 1, 1⟩ = some "reviewing" := by
  refine ⟨by decide, by decide, by decide, by decide, ?_⟩
  rintro ⟨f, h1, h2⟩
  rw [h1] at h2
  exact absurd h2 (by decide)

/-- C9 counterexample: StatusHistory rows are not beyond deletion:
deleting application 1 cascades and removes its existing history row. -/
theorem statusHistory_deleted_by_cascade :
    (baseState "applied").statusHistory ≠ [] ∧
    (deleteApplication (baseState "applied") 1 "1").2 =
      jsonMsg 200 "Application deleted successfully" ∧
    (deleteApplication (baseState "applied") 1 "1").1.statusHistory = [] := by
  decide

/-- C6 counterexample: a create body that is valid except for priority
urgent fails Zod validation (the priority z.enum lists only low, medium,
high), and likewise for an update body, even though the database Priority
enum does contain urgent; and were the mapper ever reached, it would turn
urgent into medium. -/
theorem priority_urgent_not_accepted :
    validCreate (mkCreate none (some "medium")) = true ∧
    validCreate (mkCreate none (some "urgent")) = false ∧
    validUpdate { emptyUpdate with priority := some "urgent" } = false ∧
    "urgent" ∈ dbPriorityValues ∧
    "urgent" ∉ priorityEnumVals ∧
    mapPriority "urgent" = JsVal.str "medium" := by
  decide

/-- mapPriority is the identity on the three Zod-accepted priority
values. -/
theorem mapPriority_asStr_of_mem (pr : String) (h : pr ∈ priorityEnumVals) :
    (mapPriority pr).asStr = pr := by
  fin_cases h <;> rfl

/-- A Zod-accepted priority value is nonempty. -/
theorem priorityEnumVals_ne_empty (pr : String) (h : pr ∈ priorityEnumVals) : pr ≠ "" := by
  fin_cases h <;> decide

/-- C7: a fetch, update or delete naming an application that no row owned
by the caller matches, because the id is absent or because the row
belongs to a different user, answers exactly the uniform
404 Application not found response with the store untouched: never a 403,
and indistinguishable from the missing-id case. -/
theorem cross_user_access_answers_not_found (s : DbState) (uid : Nat) (idParam : String)
    (appId : Int) (hp : parseIntJS idParam = some appId)
    (hown : ∀ a ∈ s.applications, (a.id : Int) = appId → a.userId ≠ uid) :
    getApplicationById s uid idParam = (s, jsonMsg 404 "Application not found") ∧
    (∀ p : UpdateInput,
        updateApplication s uid idParam p = (s, jsonMsg 404 "Application not found")) ∧
    deleteApplication s uid idParam = (s, jsonMsg 404 "Application not found") := by
  have hf : findFirstApp s.applications appId uid = none := by
    apply List.find?_eq_none.mpr
    intro a ha
    simp only [Bool.and_eq_true, beq_iff_eq, not_and]
    exact fun hid huid => hown a ha hid huid
  refine ⟨?_, fun p => ?_, ?_⟩ <;>
    simp [getApplicationById, updateApplication, updateApplicationWith, deleteApplication, hp, hf]

/-- Witness for C7: user 1 fetching, updating and deleting application 1
owned by user 2 gets the uniform 404. -/
theorem cross_user_access_answers_not_found_witness :
    getApplicationById (stateOwnedBy 2) 1 "1" =
      (stateOwnedBy 2, jsonMsg 404 "Application not found") ∧
    updateApplication (stateOwnedBy 2) 1 "1" emptyUpdate =
      (stateOwnedBy 2, jsonMsg 404 "Application not found") ∧
    deleteApplication (stateOwnedBy 2) 1 "1" =
      (stateOwnedBy 2, jsonMsg 404 "Application not found") := by
  have h := cross_user_access_answers_not_found (stateOwnedBy 2) 1 "1" 1 (by decide) (by decide)
  exact ⟨h.1, h.2.1 emptyUpdate, h.2.2⟩

/-- C8: deleting an application removes, through the ON DELETE CASCADE
foreign keys, every StatusHistory, Interview, Task and Document row
referencing it: afterwards no row of the four child tables carries the
deleted id, and the application row itself is gone. -/
theorem delete_cascades_leave_no_orphans (s : DbState) (uid : Nat) (idParam : String)
    (appId : Int) (a : Application)
    (hp : parseIntJS idParam = some appId)
    (hf : findFirstApp s.applications appId uid = some a) :
    (deleteApplication s uid idParam).2 = jsonMsg 200 "Application deleted successfully" ∧
    (∀ x ∈ (deleteApplication s uid idParam).1.applications, x.id ≠ a.id) ∧
    (∀ e ∈ (deleteApplication s uid idParam).1.statusHistory, e.applicationId ≠ a.id) ∧
    (∀ i ∈ (deleteApplication s uid idParam).1.interviews, i.applicationId ≠ a.id) ∧
    (∀ t ∈ (deleteApplication s uid idParam).1.tasks, t.applicationId ≠ some a.id) ∧
    (∀ d ∈ (deleteApplication s uid idParam).1.documents, d.applicationId ≠ some a.id) := by
  have hstep : deleteApplication s uid idParam =
      (deleteApplicationCascade s a.id, jsonMsg 200 "Application deleted successfully") := by
    simp [deleteApplication, hp, hf]
  rw [hstep]
  simp only [deleteApplicationCascade]
  refine ⟨trivial, ?_, ?_, ?_, ?_, ?_⟩ <;>
  · intro x hx
    have hkept := (List.mem_filter.mp hx).2
    simpa using hkept

/-- Witness for C8 on a store with one dependent row in every child
table. -/
theorem delete_cascades_leave_no_orphans_witness :
    (deleteApplication stateWithChildren 1 "1").2 =
      jsonMsg 200 "Application deleted successfully" ∧
    (∀ e ∈ (deleteApplication stateWithChildren 1 "1").1.statusHistory,
        e.applicationId ≠ (mkApp 1 1 1 "applied").id) ∧
    (∀ i ∈ (deleteApplication stateWithChildren 1 "1").1.interviews,
        i.applicationId ≠ (mkApp 1 1 1 "applied").id) := by
  have h := delete_cascades_leave_no_orphans stateWithChildren 1 "1" 1 (mkApp 1 1 1 "applied")
    (by decide) (by decide)
  exact ⟨h.1, h.2.2.1, h.2.2.2.1⟩

/-- C3: history-entry counts are exact: a successful creation writes
exactly one entry whether or not a status was supplied, the stored status
defaulting to applied when the payload omits it; an update whose body has
no status writes none; an update requesting the currently stored status
writes none; and an update requesting a different status writes exactly
one. -/
theorem history_entry_counts :
    (∀ (s : DbState) (uid : Nat) (p : CreateInput) (c : Company),
        findFirstCompany s.companies p.companyId uid = some c →
        (createApplication s uid p).1.statusHistory.length = s.statusHistory.length + 1) ∧
    (∀ (s : DbState) (uid : Nat) (p : CreateInput) (c : Company),
        findFirstCompany s.companies p.companyId uid = some c → p.status = none →
        ∃ app : Application, (createApplication s uid p).2.application = some app ∧
          app.status = "applied") ∧
    (∀ (s : DbState) (uid : Nat) (idParam : String) (p : UpdateInput),
        p.status = none →
        (updateApplication s uid idParam p).1.statusHistory = s.statusHistory) ∧
    (∀ (s : DbState) (uid : Nat) (idParam : String) (appId : Int) (a : Application)
        (p : UpdateInput),
        parseIntJS idParam = some appId →
        findFirstApp s.applications appId uid = some a →
        p.status = some a.status →
        (updateApplication s uid idParam p).1.statusHistory = s.statusHistory) ∧
    (∀ (s : DbState) (uid : Nat) (idParam : String) (appId : Int) (a : Application)
        (st : String) (p : UpdateInput),
        parseIntJS idParam = some appId →
        findFirstApp s.applications appId uid = some a →
        (optNatTruthy p.companyId &&
          (findFirstCompany s.companies (p.companyId.getD 0) uid).isNone) = false →
        p.status = some st → st ≠ "" → st ≠ a.status →
        (updateApplication s uid idParam p).1.statusHistory.length =
          s.statusHistory.length + 1) := by
  refine ⟨?_, ?_, ?_, ?_, ?_⟩
  · intro s uid p c hc
    simp [createApplication, hc]
  · intro s uid p c hc hst
    exact ⟨buildCreateApp s uid p, by simp [createApplication, hc],
      by simp [buildCreateApp, hst, optStrTruthy]⟩
  · intro s uid idParam p hst
    rcases hp : parseIntJS idParam with _ | appId
    · simp [updateApplication, updateApplicationWith, hp]
    · rcases hf : findFirstApp s.applications appId uid with _ | a
      · simp [updateApplication, updateApplicationWith, hp, hf]
      · cases hcc : (optNatTruthy p.companyId &&
            (findFirstCompany s.companies (p.companyId.getD 0) uid).isNone) <;>
          simp [updateApplication, updateApplicationWith, hp, hf, hcc, hst, optStrTruthy]
  · intro s uid idParam appId a p hp hf hst
    cases hcc : (optNatTruthy p.companyId &&
        (findFirstCompany s.companies (p.companyId.getD 0) uid).isNone) <;>
      simp [updateApplication, updateApplicationWith, hp, hf, hcc, hst]
  · intro s uid idParam appId a st p hp hf hcc hst hne hdiff
    simp [updateApplication, updateApplicationWith, hp, hf, hcc, hst, optStrTruthy, hne, hdiff]

/-- Witness for C3: on baseState, creating without a status stores
applied; an empty update and a same-status update append nothing; a
status-changing update appends one entry. -/
theorem history_entry_counts_witness :
    (createApplication (baseState "applied") 1 (mkCreate none none)).1.statusHistory.length =
      (baseState "applied").statusHistory.length + 1 ∧
    (updateApplication (baseState "applied") 1 "1" emptyUpdate).1.statusHistory =
      (baseState "applied").statusHistory ∧
    (updateApplication (baseState "applied") 1 "1"
        (statusOnlyUpdate "applied")).1.statusHistory = (baseState "applied").statusHistory ∧
    (updateApplication (baseState "applied") 1 "1"
        (statusOnlyUpdate "interviewed")).1.statusHistory.length =
      (baseState "applied").statusHistory.length + 1 := by
  refine ⟨history_entry_counts.1 _ _ _ ⟨1, 1, "Acme"⟩ (by decide),
    history_entry_counts.2.2.1 _ _ _ _ rfl,
    history_entry_counts.2.2.2.1 _ _ _ 1 (mkApp 1 1 1 "applied") _ (by decide) (by decide) rfl,
    history_entry_counts.2.2.2.2 _ _ _ 1 (mkApp 1 1 1 "applied") "interviewed" _
      (by decide) (by decide) (by decide) rfl (by decide) (by decide)⟩

/-- C6 amended: the database Priority enum has the four values low,
medium, high and urgent, but the API accepts only the first three: a
create body carrying low, medium or high passes validation and the
created application stores exactly that priority, while any body carrying
priority urgent fails validation, so the create and update operations
never accept urgent. -/
theorem priority_vocabulary (s : DbState) (uid : Nat) (p : CreateInput) (pr : String)
    (c : Company) (hv : validCreate p = true) (hpr : p.priority = some pr)
    (hc : findFirstCompany s.companies p.companyId uid = some c) :
    pr ∈ priorityEnumVals ∧
    (createApplication s uid p).2.status = 201 ∧
    (∃ app : Application, (createApplication s uid p).2.application = some app ∧
        app.priority = pr ∧ app ∈ (createApplication s uid p).1.applications) ∧
    (∀ q : CreateInput, q.priority = some "urgent" → validCreate q = false) ∧
    "urgent" ∈ dbPriorityValues := by
  have hmem : pr ∈ priorityEnumVals := by
    have h11 : memEnum p.priority priorityEnumVals = true := by
      simp only [validCreate, Bool.and_eq_true] at hv
      exact hv.1.1.1.1.1.2
    rw [hpr] at h11
    simpa [memEnum] using h11
  have hne : pr ≠ "" := priorityEnumVals_ne_empty pr hmem
  refine ⟨hmem, ?_, ?_, ?_, by decide⟩
  · simp [createApplication, hc]
  · refine ⟨buildCreateApp s uid p, by simp [createApplication, hc], ?_, ?_⟩
    · simp [buildCreateApp, hpr, optStrTruthy, hne, mapPriority_asStr_of_mem pr hmem]
    · simp [createApplication, hc]
  · intro q hq
    have hurg : ¬ ("urgent" ∈ priorityEnumVals) := by decide
    simp [validCreate, memEnum, hq, hurg]

/-- Witness for the amended C6 at priority high on baseState. -/
theorem priority_vocabulary_witness :
    (createApplication (baseState "applied") 1 (mkCreate none (some "high"))).2.status = 201 ∧
    (∃ app : Application,
        (createApplication (baseState "applied") 1
            (mkCreate none (some "high"))).2.application = some app ∧
        app.priority = "high" ∧
        app ∈ (createApplication (baseState "applied") 1
            (mkCreate none (some "high"))).1.applications) := by
  have h := priority_vocabulary (baseState "applied") 1 (mkCreate none (some "high")) "high"
    ⟨1, 1, "Acme"⟩ (by decide) rfl (by decide)
  exact ⟨h.2.1, h.2.2.1⟩

/-- C1 amended: a StatusHistory row has no previousStatus column: it
records only the new status, an optional note and a creation timestamp.
Creation inserts one row carrying the initial status with note
Application created; a status-changing update appends exactly one row
carrying the new status with note Status updated to the requested value.
The status held before an update is not part of the appended row and
survives only as the status of the preceding row in creation order. -/
theorem statusHistory_rows_content :
    (∀ (s : DbState) (uid : Nat) (p : CreateInput) (c : Company),
        findFirstCompany s.companies p.companyId uid = some c →
        (createApplication s uid p).1.statusHistory =
          s.statusHistory ++
            [⟨s.nextHistId, (buildCreateApp s uid p).status, some "Application created",
              s.clock, (buildCreateApp s uid p).id⟩]) ∧
    (∀ (s : DbState) (uid : Nat) (idParam : String) (appId : Int) (a : Application)
        (st : String) (p : UpdateInput),
        parseIntJS idParam = some appId →
        findFirstApp s.applications appId uid = some a →
        (optNatTruthy p.companyId &&
          (findFirstCompany s.companies (p.companyId.getD 0) uid).isNone) = false →
        p.status = some st → st ∈ statusEnumVals → st ≠ a.status →
        (updateApplication s uid idParam p).1.statusHistory =
          s.statusHistory ++
            [⟨s.nextHistId, st, some ("Status updated to " ++ st), s.clock, a.id⟩]) := by
  constructor
  · intro s uid p c hc
    simp [createApplication, hc]
  · intro s uid idParam appId a st p hp hf hcc hst hmem hdiff
    have hne : st ≠ "" := statusEnumVals_ne_empty st hmem
    have hstat : (applyUpdate a p).status = st := by
      simp [applyUpdate, hst, optStrTruthy, hne, mapStatus_asStr_of_mem st hmem]
    have hid : (applyUpdate a p).id = a.id := rfl
    simp [updateApplication, updateApplicationWith, hp, hf, hcc, hst, optStrTruthy,
      hne, hdiff, hstat, hid]

/-- Witness for the amended C1 on baseState: the concrete rows created
and appended. -/
theorem statusHistory_rows_content_witness :
    (createApplication (baseState "applied") 1 (mkCreate none none)).1.statusHistory =
      (baseState "applied").statusHistory ++
        [⟨2, (buildCreateApp (baseState "applied") 1 (mkCreate none none)).status,
          some "Application created", 1,
          (buildCreateApp (baseState "applied") 1 (mkCreate none none)).id⟩] ∧
    (updateApplication (baseState "applied") 1 "1"
        (statusOnlyUpdate "interviewed")).1.statusHistory =
      (baseState "applied").statusHistory ++
        [⟨2, "interviewed", some ("Status updated to " ++ "interviewed"), 1, 1⟩] := by
  constructor
  · exact statusHistory_rows_content.1 (baseState "applied") 1 (mkCreate none none)
      ⟨1, 1, "Acme"⟩ (by decide)
  · exact statusHistory_rows_content.2 (baseState "applied") 1 "1" 1 (mkApp 1 1 1 "applied")
      "interviewed" (statusOnlyUpdate "interviewed") (by decide) (by decide) (by decide)
      rfl (by decide) (by decide)

/-- Appending one row stamped with the current clock keeps the history
strictly ordered and inside the advanced clock. -/
theorem historyOrdered_append (l : List StatusHistory) (x : StatusHistory) (ck : Nat)
    (hp : List.Pairwise (fun e1 e2 => e1.createdAt < e2.createdAt) l)
    (hb : ∀ e ∈ l, e.createdAt < ck) (hx : x.createdAt = ck) :
    List.Pairwise (fun e1 e2 => e1.createdAt < e2.createdAt) (l ++ [x]) ∧
    ∀ e ∈ l ++ [x], e.createdAt < ck + 1 := by
  constructor
  · rw [List.pairwise_append]
    refine ⟨hp, by simp, ?_⟩
    intro e he y hy
    simp only [List.mem_singleton] at hy
    subst hy
    rw [hx]
    exact hb e he
  · intro e he
    rcases List.mem_append.mp he with h | h
    · exact Nat.lt_succ_of_lt (hb e h)
    · simp only [List.mem_singleton] at h
      subst h
      rw [hx]
      exact Nat.lt_succ_self ck

/-- A request that leaves the history untouched and does not rewind the
clock preserves the append-only contract trivially. -/
theorem appendOnly_unchanged (s s1 : DbState)
    (hh : s1.statusHistory = s.statusHistory) (hck : s.clock ≤ s1.clock)
    (hw : historyOrdered s) :
    historyOrdered s1 ∧
    (∀ e ∈ s.statusHistory, e ∉ s1.statusHistory →
        ∀ a ∈ s1.applications, a.id ≠ e.applicationId) ∧
    (∃ (kept : StatusHistory → Bool) (tail : List StatusHistory),
        s1.statusHistory = s.statusHistory.filter kept ++ tail ∧
        ∀ e ∈ tail, e.createdAt = s.clock) := by
  refine ⟨⟨hh ▸ hw.1, ?_⟩, ?_, ⟨fun _ => true, [], by simp [hh], by simp⟩⟩
  · intro e he
    rw [hh] at he
    exact lt_of_lt_of_le (hw.2 e he) hck
  · intro e he hne
    rw [hh] at hne
    exact absurd he hne

/-- A request that appends exactly one row stamped with the clock and
advances the clock preserves the append-only contract. -/
theorem appendOnly_grow (s s1 : DbState) (x : StatusHistory)
    (hh : s1.statusHistory = s.statusHistory ++ [x])
    (hck : s1.clock = s.clock + 1) (hx : x.createdAt = s.clock)
    (hw : historyOrdered s) :
    historyOrdered s1 ∧
    (∀ e ∈ s.statusHistory, e ∉ s1.statusHistory →
        ∀ a ∈ s1.applications, a.id ≠ e.applicationId) ∧
    (∃ (kept : StatusHistory → Bool) (tail : List StatusHistory),
        s1.statusHistory = s.statusHistory.filter kept ++ tail ∧
        ∀ e ∈ tail, e.createdAt = s.clock) := by
  obtain ⟨hpair, hball⟩ := historyOrdered_append s.statusHistory x s.clock hw.1 hw.2 hx
  refine ⟨⟨hh ▸ hpair, ?_⟩, ?_, ⟨fun _ => true, [x], by simp [hh], by simp [hx]⟩⟩
  · intro e he
    rw [hh] at he
    rw [hck]
    exact hball e he
  · intro e he hne
    rw [hh] at hne
    exact absurd (List.mem_append_left [x] he) hne

/-- A request that removes exactly the rows failing a predicate, with the
surviving applications avoiding the removed ids, preserves the
append-only contract. -/
theorem appendOnly_shrink (s s1 : DbState) (q : StatusHistory → Bool)
    (hh : s1.statusHistory = s.statusHistory.filter q)
    (hck : s.clock ≤ s1.clock)
    (happ : ∀ e, q e = false → ∀ a ∈ s1.applications, a.id ≠ e.applicationId)
    (hw : historyOrdered s) :
    historyOrdered s1 ∧
    (∀ e ∈ s.statusHistory, e ∉ s1.statusHistory →
        ∀ a ∈ s1.applications, a.id ≠ e.applicationId) ∧
    (∃ (kept : StatusHistory → Bool) (tail : List StatusHistory),
        s1.statusHistory = s.statusHistory.filter kept ++ tail ∧
        ∀ e ∈ tail, e.createdAt = s.clock) := by
  refine ⟨⟨?_, ?_⟩, ?_, ⟨q, [], by simp [hh], by simp⟩⟩
  · rw [hh]
    exact List.Pairwise.sublist (List.filter_sublist _) hw.1
  · intro e he
    rw [hh] at he
    exact lt_of_lt_of_le (hw.2 e (List.mem_of_mem_filter he)) hck
  · intro e he hne
    rw [hh] at hne
    have hq : q e = false := by
      cases hqe : q e
      · rfl
      · exact absurd (List.mem_filter.mpr ⟨he, hqe⟩) hne
    exact happ e hq

/-- The GET by id handler never writes. -/
theorem getApplicationById_state (s : DbState) (uid : Nat) (idParam : String) :
    (getApplicationById s uid idParam).1 = s := by
  rcases hp : parseIntJS idParam with _ | appId
  · simp [getApplicationById, hp]
  · rcases hf : findFirstApp s.applications appId uid with _ | a <;>
      simp [getApplicationById, hp, hf]

/-- C9 amended: across every request the applications router handles,
StatusHistory rows are never mutated: an operation either keeps the
stored rows (appending at most one new row, stamped with the current
clock, at the end) or removes rows solely because their owning
Application is deleted in that same operation (no surviving application
carries the id of a removed row); and the stored history stays strictly
ordered by creation time. -/
theorem statusHistory_append_only (s : DbState) (op : Op) (hw : historyOrdered s) :
    historyOrdered (step s op).1 ∧
    (∀ e ∈ s.statusHistory, e ∉ (step s op).1.statusHistory →
        ∀ a ∈ (step s op).1.applications, a.id ≠ e.applicationId) ∧
    (∃ (kept : StatusHistory → Bool) (tail : List StatusHistory),
        (step s op).1.statusHistory = s.statusHistory.filter kept ++ tail ∧
        ∀ e ∈ tail, e.createdAt = s.clock) := by
  cases op with
  | getOne uid idParam =>
    have hst : (step s (Op.getOne uid idParam)).1 = s := getApplicationById_state s uid idParam
    rw [hst]
    exact appendOnly_unchanged s s rfl le_rfl hw
  | create uid p =>
    simp only [step, createApplication]
    split
    · exact appendOnly_unchanged s _ rfl le_rfl hw
    · exact appendOnly_grow s _
        ⟨s.nextHistId, (buildCreateApp s uid p).status, some "Application created",
          s.clock, (buildCreateApp s uid p).id⟩ rfl rfl rfl hw
  | update uid idParam p =>
    simp only [step, updateApplication, updateApplicationWith]
    split
    · exact appendOnly_unchanged s _ rfl le_rfl hw
    · split
      · exact appendOnly_unchanged s _ rfl le_rfl hw
      · rename_i a ha
        split
        · exact appendOnly_unchanged s _ rfl le_rfl hw
        · split
          · split
            · rename_i hfalse
              exact absurd hfalse (by decide)
            · exact appendOnly_grow s _
                ⟨s.nextHistId, (applyUpdate a p).status,
                  some ("Status updated to " ++ p.status.getD ""), s.clock,
                  (applyUpdate a p).id⟩ rfl rfl rfl hw
          · exact appendOnly_unchanged s _ rfl le_rfl hw
  | deleteOne uid idParam =>
    simp only [step, deleteApplication]
    split
    · exact appendOnly_unchanged s _ rfl le_rfl hw
    · split
      · exact appendOnly_unchanged s _ rfl le_rfl hw
      · rename_i a ha
        refine appendOnly_shrink s _ (fun e => e.applicationId != a.id) rfl le_rfl ?_ hw
        intro e hqe x hx
        have heq : e.applicationId = a.id := by simpa using hqe
        have hx2 : x ∈ s.applications.filter (fun y => y.id != a.id) := hx
        have hxne : x.id ≠ a.id := by simpa using (List.mem_filter.mp hx2).2
        rw [heq]
        exact hxne
  | bulkDelete uid ids =>
    simp only [step, bulkDeleteApplications]
    split
    · exact appendOnly_unchanged s _ rfl le_rfl hw
    · split
      · exact appendOnly_unchanged s _ rfl le_rfl hw
      · refine appendOnly_shrink s _ (fun e =>
            !(((s.applications.filter (fun a => ids.contains a.id && a.userId == uid)).map
              (fun a => a.id)).contains e.applicationId)) rfl le_rfl ?_ hw
        intro e hqe x hx
        have heq : (((s.applications.filter
            (fun a => ids.contains a.id && a.userId == uid)).map
              (fun a => a.id)).contains e.applicationId) = true := by
          simpa using hqe
        have hx2 : x ∈ s.applications.filter (fun y =>
            !(((s.applications.filter (fun a => ids.contains a.id && a.userId == uid)).map
              (fun a => a.id)).contains y.id)) := hx
        have hxf : (((s.applications.filter
            (fun a => ids.contains a.id && a.userId == uid)).map
              (fun a => a.id)).contains x.id) = false := by
          simpa using (List.mem_filter.mp hx2).2
        intro hcontra
        rw [hcontra] at hxf
        rw [hxf] at heq
        exact Bool.false_ne_true heq

/-- Witness for the amended C9: the concrete ordered baseState stays
ordered across a status-changing update. -/
theorem statusHistory_append_only_witness :
    historyOrdered (baseState "applied") ∧
    historyOrdered
      (step (baseState "applied") (Op.update 1 "1" (statusOnlyUpdate "interviewed"))).1 := by
  have hw : historyOrdered (baseState "applied") := by
    constructor
    · simp [baseState]
    · intro e he
      simp only [baseState, List.mem_singleton] at he
      subst he
      decide
  exact ⟨hw, (statusHistory_append_only (baseState "applied")
    (Op.update 1 "1" (statusOnlyUpdate "interviewed")) hw).1⟩

/-- C10: the bulk-delete endpoint is unreachable. DELETE bulk is captured
by the DELETE :id route registered earlier (route index 4, never the bulk
route at index 5), parseInt of the string bulk is NaN, and the request
answers 400 Invalid application ID with the store untouched, so the bulk
handler body never executes. -/
theorem bulk_delete_route_unreachable (s : DbState) (uid : Nat) (bodyIds : List Nat) :
    firstMatchIdx Method.delete (some "bulk") = some 4 ∧
    parseIntJS "bulk" = none ∧
    dispatchDelete s uid "bulk" bodyIds = (s, jsonMsg 400 "Invalid application ID") := by
  have hm : firstMatchIdx Method.delete (some "bulk") = some 4 := by decide
  have hp : parseIntJS "bulk" = none := by decide
  refine ⟨hm, hp, ?_⟩
  simp [dispatchDelete, hm, deleteApplication, hp]

end JobTracker
